import Mathlib

set_option maxHeartbeats 1000000

/-! Shallow embedding of the tabular-data consolidation scripts of the
FINANCIALDATAANALYSISPROJECT repository — src/utils/multi_sheet_merger.py,
src/utils/data_merger.py, src/utils/easy_multi_sheet_merger.py,
src/utils/finance_data_merger.py — and of the max-drawdown analytics in
src/reports/pdf_report_generator.py and src/analyzers/advanced_data_analyzer.py,
together with theorems settling the frozen claims about them.

Python strings are modelled as lists of characters; pandas DataFrames as a
list of named columns plus a row count; the possible outcomes of reading one
file under each codec are carried as fields of the file record.  Floating
point arithmetic of the analytics is modelled over the rationals. -/

namespace FinProj

/-- Python strings are modelled as lists of characters. -/
abbrev Str := List Char

/-- Index of the last occurrence of a character in a string, as Python
str.rfind returns it (none when the character does not occur). -/
def lastIdxOf (c : Char) (s : Str) : Option Nat :=
  (s.reverse.findIdx? (fun x => x = c)).map (fun j => s.length - 1 - j)

/-- Python pathlib.PurePath.stem on a bare file name: the name with its final
extension removed; a name whose only dot is leading or trailing has no
extension (CPython: suffix is name[i:] only when 0 < i < len(name)-1 for
i = name.rfind('.')). -/
def pyStem (s : Str) : Str :=
  match lastIdxOf '.' s with
  | none => s
  | some i => if 0 < i ∧ i < s.length - 1 then s.take i else s

/-- Python pathlib.PurePath.suffix on a bare file name (same rfind rule). -/
def pySuffix (s : Str) : Str :=
  match lastIdxOf '.' s with
  | none => []
  | some i => if 0 < i ∧ i < s.length - 1 then s.drop i else []

/-- Python os.path.basename: the part after the last slash. -/
def baseName (p : Str) : Str :=
  (p.reverse.takeWhile (fun c => c ≠ '/')).reverse

/-- Python str.lower, character by character. -/
def toLowerStr (s : Str) : Str := s.map Char.toLower

/-- multi_sheet_merger.MultiSheetMerger.clean_sheet_name, line 58:
invalid_chars = ['\\', '/', '?', '*', '[', ']', ':'] (seven characters). -/
def invalid_chars : List Char := ['\\', '/', '?', '*', '[', ']', ':']

/-- multi_sheet_merger.py line 36: Excel sheet name length bound. -/
def MAX_SHEET_NAME_LEN : Nat := 31

/-- multi_sheet_merger.py line 35: sheet count ceiling. -/
def MAX_SHEETS : Nat := 200

/-- Python str.replace with single-character pattern and replacement. -/
def replaceChar (old : Char) (s : Str) : Str :=
  s.map (fun c => if c = old then '_' else c)

/-- The loop `for char in invalid_chars: name = name.replace(char, '_')` of
clean_sheet_name (multi_sheet_merger.py lines 59-60, easy_multi_sheet_merger.py
lines 134-135). -/
def sanitize (s : Str) : Str :=
  invalid_chars.foldl (fun acc c => replaceChar c acc) s

/-- Pointwise description of `sanitize`: substitute a forbidden character
with an underscore, keep every other character. -/
def substInvalid (c : Char) : Char := if c ∈ invalid_chars then '_' else c

def dots3 : Str := ['.', '.', '.']

/-- multi_sheet_merger.MultiSheetMerger.clean_sheet_name (lines 52-66):
strip the extension, replace the forbidden characters with underscores, and
when longer than 31 characters truncate to 28 and append "...".
easy_multi_sheet_merger lines 132-138 are the same computation inline. -/
def clean_sheet_name (filename : Str) : Str :=
  if MAX_SHEET_NAME_LEN < (sanitize (pyStem filename)).length then
    (sanitize (pyStem filename)).take (MAX_SHEET_NAME_LEN - 3) ++ dots3
  else sanitize (pyStem filename)

/-- Decimal rendering of a natural number, fuel-based so that the kernel can
evaluate it; with fuel above the number of digits it agrees with Python str. -/
def pyNatStrAux : Nat → Nat → Str
  | 0, _ => []
  | fuel + 1, n =>
    if n < 10 then [Nat.digitChar n]
    else pyNatStrAux fuel (n / 10) ++ [Nat.digitChar (n % 10)]

/-- Python str(n) for a natural number n. -/
def pyNatStr (n : Nat) : Str := pyNatStrAux (n + 1) n

/-- The collision candidate of multi_sheet_merger.read_single_file lines
140-143: when the base exceeds MAX_SHEET_NAME_LEN - 4 = 27 characters it is
truncated to 27 before the `_counter` suffix is appended. -/
def mkCandidate (orig : Str) (c : Nat) : Str :=
  if MAX_SHEET_NAME_LEN - 4 < orig.length then
    orig.take (MAX_SHEET_NAME_LEN - 4) ++ '_' :: pyNatStr c
  else orig ++ '_' :: pyNatStr c

/-- The collision candidate of easy_multi_sheet_merger.merge_data_to_sheets
line 145: the base is always truncated to its first 25 characters. -/
def mkCandidateEasy (orig : Str) (c : Nat) : Str :=
  orig.take 25 ++ '_' :: pyNatStr c

/-- The `while sheet_name in existing_names` loop of
multi_sheet_merger.read_single_file lines 136-144, made total with explicit
fuel: the Python loop always terminates because candidates with distinct
counters are distinct names, so fuel of one more than the size of the
existing set always suffices; the theorems below are stated conditionally on
the loop returning a name. -/
def uniquify (orig : Str) (existing : List Str) : Nat → Nat → Str → Option Str
  | 0, _, cur => if cur ∈ existing then none else some cur
  | fuel + 1, c, cur =>
    if cur ∈ existing then uniquify orig existing fuel (c + 1) (mkCandidate orig c)
    else some cur

/-- Sheet-name allocation of multi_sheet_merger.read_single_file lines
132-144: sanitize the file name, then resolve collisions against the names
already allocated in this run. -/
def allocate_sheet_name (filename : Str) (existing : List Str) : Option Str :=
  uniquify (clean_sheet_name filename) existing (existing.length + 1) 1
    (clean_sheet_name filename)

/-- The collision loop of easy_multi_sheet_merger lines 140-146. -/
def uniquifyEasy (orig : Str) (existing : List Str) : Nat → Nat → Str → Option Str
  | 0, _, cur => if cur ∈ existing then none else some cur
  | fuel + 1, c, cur =>
    if cur ∈ existing then uniquifyEasy orig existing fuel (c + 1) (mkCandidateEasy orig c)
    else some cur

/-- Sheet-name allocation of easy_multi_sheet_merger lines 131-146. -/
def allocate_easy (filename : Str) (existing : List Str) : Option Str :=
  uniquifyEasy (clean_sheet_name filename) existing (existing.length + 1) 1
    (clean_sheet_name filename)

/-- A cell value: original file data is opaque, provenance cells carry the
string written into them, the processing timestamp is abstract. -/
inductive CellVal where
  | data (id : Nat)
  | strv (s : Str)
  | timev
deriving DecidableEq

/-- A pandas DataFrame, as far as the claims observe it: the ordered list of
named columns and the number of data rows. -/
structure Table where
  cols : List (Str × CellVal)
  nrows : Nat
deriving DecidableEq

/-- The exceptions the readers distinguish: UnicodeDecodeError triggers the
encoding fallback, anything else does not. -/
inductive PyErr where
  | unicodeDecodeError
  | otherError (msg : Str)
deriving DecidableEq

/-- Outcome of one pandas read call: a table, or a raised exception. -/
inductive RRes where
  | ok (t : Table)
  | err (e : PyErr)
deriving DecidableEq

/-- The three possible outcomes of pd.read_csv on one file, one per codec in
the fixed chain utf-8 / gbk / latin-1. -/
structure CsvAttempts where
  utf8 : RRes
  gbk : RRes
  latin1 : RRes
deriving DecidableEq

/-- One discovered source file: its base name, its directory, the outcome
pd.read_excel would give, the per-codec outcomes pd.read_csv would give, and
whether writing its sheet would succeed. -/
structure SrcFile where
  filename : Str
  folder : Str
  excelRead : RRes
  csvRead : CsvAttempts
  writeOk : Bool
deriving DecidableEq

/-- os.path.join of the directory and the base name. -/
def fullPath (f : SrcFile) : Str := f.folder ++ '/' :: f.filename

def xlsxExt : Str := (".xlsx").toList
def xlsExt : Str := (".xls").toList
def csvExt : Str := (".csv").toList

/-- multi_sheet_merger.py line 32: SUPPORTED_FORMATS = ['.xlsx', '.csv', '.xls']. -/
def SUPPORTED_FORMATS : List Str := [xlsxExt, csvExt, xlsExt]

/-- The nested try/except UnicodeDecodeError chain shared verbatim by
data_merger.read_single_file lines 72-78, multi_sheet_merger lines 121-127,
easy_multi_sheet_merger lines 121-127 and finance_data_merger lines 547-553:
utf-8 first, gbk only after a UnicodeDecodeError, latin-1 only after a second
UnicodeDecodeError; any other exception propagates. -/
def read_csv_fallback (a : CsvAttempts) : RRes :=
  match a.utf8 with
  | RRes.ok t => RRes.ok t
  | RRes.err PyErr.unicodeDecodeError =>
    match a.gbk with
    | RRes.ok t => RRes.ok t
    | RRes.err PyErr.unicodeDecodeError => a.latin1
    | RRes.err e => RRes.err e
  | RRes.err e => RRes.err e

/-- The format dispatch of multi_sheet_merger.read_single_file lines 117-130:
.xlsx/.xls via read_excel, .csv via the encoding chain, anything else returns
None without recording an error. -/
def readData (f : SrcFile) : Option RRes :=
  if toLowerStr (pySuffix f.filename) = xlsxExt ∨ toLowerStr (pySuffix f.filename) = xlsExt then
    some f.excelRead
  else if toLowerStr (pySuffix f.filename) = csvExt then
    some (read_csv_fallback f.csvRead)
  else none

/-- The format dispatch of data_merger.read_single_file lines 67-81: only
.xlsx and .csv are handled (supported_formats = ['.xlsx', '.csv']). -/
def dm_readData (f : SrcFile) : Option RRes :=
  if toLowerStr (pySuffix f.filename) = xlsxExt then some f.excelRead
  else if toLowerStr (pySuffix f.filename) = csvExt then
    some (read_csv_fallback f.csvRead)
  else none

/-- A file whose (lower-cased) extension the multi-sheet merger handles. -/
def supportedExt (f : SrcFile) : Prop :=
  toLowerStr (pySuffix f.filename) ∈ SUPPORTED_FORMATS

instance (f : SrcFile) : Decidable (supportedExt f) := by
  unfold supportedExt; infer_instance

/-- Whether the multi-sheet merger's read of this file yields a table. -/
def readOk (f : SrcFile) : Bool :=
  match readData f with
  | some (RRes.ok _) => true
  | _ => false

/-- Rendering of a caught exception, Python str(e); the payload of a
UnicodeDecodeError is abstracted to its class name. -/
def pyErrText : PyErr → Str
  | PyErr.unicodeDecodeError => ("UnicodeDecodeError").toList
  | PyErr.otherError m => m

/-- multi_sheet_merger line 151 error message prefix. -/
def readFailText (e : PyErr) : Str := ("读取失败: ").toList ++ pyErrText e

/-- multi_sheet_merger line 209 error message (the exception text of a failed
sheet write is abstracted away, the write outcome being a boolean here). -/
def writeFailText : Str := ("写入失败").toList

/-- pandas column assignment df[name] = v: overwrite when the column exists,
otherwise append it at the end. -/
def setCol (t : Table) (name : Str) (v : CellVal) : Table :=
  if name ∈ t.cols.map Prod.fst then
    { t with cols := t.cols.map (fun p => if p.1 = name then (p.1, v) else p) }
  else { t with cols := t.cols ++ [(name, v)] }

def colSourceFile : Str := ("文件来源").toList
def colFilePath : Str := ("文件路径").toList

/-- data_merger.read_single_file lines 84-85: df['文件来源'] = basename,
df['文件路径'] = file_path (the full path, not the directory). -/
def dm_add_provenance (f : SrcFile) (t : Table) : Table :=
  setCol (setCol t colSourceFile (CellVal.strv f.filename))
    colFilePath (CellVal.strv (fullPath f))

def finColSource : Str := ("数据来源文件").toList
def finColFolder : Str := ("数据文件夹").toList
def finColTime : Str := ("处理时间").toList

/-- finance_data_merger.merge_finance_data lines 555-558: three provenance
columns — source file name, source directory, processing timestamp. -/
def finance_add_provenance (f : SrcFile) (t : Table) : Table :=
  setCol (setCol (setCol t finColSource (CellVal.strv f.filename))
      finColFolder (CellVal.strv f.folder))
    finColTime CellVal.timev

/-- pandas DataFrame.empty: true when either axis has length zero. -/
def dfEmpty (t : Table) : Bool := t.nrows = 0 || t.cols.length = 0

/-- One entry of MultiSheetMerger.sheet_info (multi_sheet_merger lines
195-202). -/
structure SheetInfo where
  sheet_name : Str
  original_file : Str
  file_path : Str
  rows : Nat
  columns : Nat
  folder : Str
deriving DecidableEq

/-- The mutable state of one MultiSheetMerger run: processed_files,
error_files, sheet_info and total_rows (lines 46-50). -/
structure MergeState where
  processed_files : Nat
  error_files : List (Str × Str)
  sheet_info : List SheetInfo
  total_rows : Nat
deriving DecidableEq

def initState : MergeState := ⟨0, [], [], 0⟩

/-- The sheet names allocated so far, in allocation order (line 138). -/
def sheetNames (st : MergeState) : List Str :=
  st.sheet_info.map (fun i => i.sheet_name)

/-- One iteration of the loop of merge_to_multiple_sheets (lines 165-209):
read the file (recording a read failure), allocate a sheet name against the
names in sheet_info, then either record the written sheet or record a write
failure.  A file whose extension the dispatch does not handle is skipped
without any record (lines 128-130).  The only none outcome is exhaustion of
the name-allocation fuel, which the Python loop cannot reach. -/
def step (st : MergeState) (f : SrcFile) : Option MergeState :=
  match readData f with
  | none => some st
  | some (RRes.err e) =>
    some { st with error_files := st.error_files ++ [(fullPath f, readFailText e)] }
  | some (RRes.ok t) =>
    match allocate_sheet_name f.filename (sheetNames st) with
    | none => none
    | some nm =>
      if f.writeOk then
        some { st with
          sheet_info := st.sheet_info ++
            [⟨nm, f.filename, fullPath f, t.nrows, t.cols.length, f.folder⟩],
          total_rows := st.total_rows + t.nrows,
          processed_files := st.processed_files + 1 }
      else
        some { st with error_files := st.error_files ++ [(fullPath f, writeFailText)] }

def mergeRunAux (st : MergeState) : List SrcFile → Option MergeState
  | [] => some st
  | f :: fs =>
    match step st f with
    | none => none
    | some st' => mergeRunAux st' fs

/-- merge_to_multiple_sheets over a list of files, starting from the fresh
state of MultiSheetMerger.__init__. -/
def mergeRun (files : List SrcFile) : Option MergeState := mergeRunAux initState files

/-- The sheet-count cap of scan_and_collect_files lines 101-104. -/
def capFiles (d : List SrcFile) : List SrcFile :=
  if MAX_SHEETS < d.length then d.take MAX_SHEETS else d

/-- Observable outcome of one multi_sheet_merger.main run: whether
pd.ExcelWriter was opened on the output path (entering it creates or
truncates that file), and the final accumulator state. -/
structure RunOutcome where
  writerOpened : Bool
  final : MergeState
deriving DecidableEq

/-- multi_sheet_merger.main lines 376-392 after discovery: with no discovered
files the function returns early (lines 381-383) — the writer is never
opened and the process exits normally; otherwise merge_to_multiple_sheets
opens pd.ExcelWriter on the output file (line 162) before any file is read,
and then processes every (capped) file. -/
def mainRun (d : List SrcFile) : Option RunOutcome :=
  if (capFiles d).isEmpty then some ⟨false, initState⟩
  else (mergeRunAux initState (capFiles d)).map (fun st => ⟨true, st⟩)

/-- State of one DataMerger run (data_merger lines 19-23, 96-110). -/
structure DmState where
  file_count : Nat
  error_files : List (Str × Str)
  tables : List Table
deriving DecidableEq

/-- One iteration of DataMerger.merge_data lines 106-110 with
read_single_file lines 54-94 inlined: read failures are recorded with the
raw exception text; a successful read gains the two provenance columns; the
result is kept and counted only when the resulting frame is non-empty —
an empty frame is dropped with no record at all. -/
def dm_step (st : DmState) (f : SrcFile) : DmState :=
  match dm_readData f with
  | none => st
  | some (RRes.err e) =>
    { st with error_files := st.error_files ++ [(fullPath f, pyErrText e)] }
  | some (RRes.ok t) =>
    if dfEmpty (dm_add_provenance f t) then st
    else { st with
      tables := st.tables ++ [dm_add_provenance f t]
      file_count := st.file_count + 1 }

/-- DataMerger.merge_data over the discovered files. -/
def dm_merge_data (files : List SrcFile) : DmState :=
  files.foldl dm_step ⟨0, [], []⟩

/-- A file the data_merger run settles one way or the other: its extension
is dispatched, and a successful read does not come out empty (an empty
frame would be dropped without any record). -/
def dmSettled (f : SrcFile) : Bool :=
  match dm_readData f with
  | none => false
  | some (RRes.err _) => true
  | some (RRes.ok t) => !dfEmpty (dm_add_provenance f t)

/-- Content state of a path after a write: a complete file or a torn
(interrupted, incomplete) one. -/
inductive WContent where
  | full
  | torn
deriving DecidableEq

/-- The filesystem operations a writer can issue: an in-place write of a
path, or a rename. -/
inductive FsOp where
  | writeOut (path : Str)
  | renameTo (src dst : Str)
deriving DecidableEq

def updateFs (fs : Str → Option WContent) (p : Str) (v : Option WContent) :
    Str → Option WContent :=
  fun q => if q = p then v else fs q

/-- Executing a trace of filesystem operations over a filesystem (a map from
path to content).  failsAt counts down to the operation that raises: a write
that fails leaves torn content at its target — the standard semantics of a
non-atomic in-place write interrupted mid-stream — and nothing after it
runs. -/
def execTrace (fs : Str → Option WContent) :
    List FsOp → Option Nat → (Str → Option WContent)
  | [], _ => fs
  | FsOp.writeOut p :: rest, failsAt =>
    match failsAt with
    | some 0 => updateFs fs p (some WContent.torn)
    | some (n + 1) => execTrace (updateFs fs p (some WContent.full)) rest (some n)
    | none => execTrace (updateFs fs p (some WContent.full)) rest none
  | FsOp.renameTo a b :: rest, failsAt =>
    match failsAt with
    | some 0 => fs
    | some (n + 1) => execTrace (updateFs (updateFs fs b (fs a)) a none) rest (some n)
    | none => execTrace (updateFs (updateFs fs b (fs a)) a none) rest none

/-- The path DataMerger.save_merged_data (lines 133-144) actually writes:
the output path itself for a .xlsx or .csv extension, otherwise the output
path with '.xlsx' appended. -/
def save_target (output_path : Str) : Str :=
  if toLowerStr (pySuffix output_path) = xlsxExt then output_path
  else if toLowerStr (pySuffix output_path) = csvExt then output_path
  else output_path ++ xlsxExt

/-- The filesystem trace of DataMerger.save_merged_data: a single in-place
write of the target path (to_excel/to_csv is called on the final path
directly; the except branch at lines 149-151 only prints and returns False,
performing no filesystem operation, and no temporary path or rename appears
anywhere in the function). -/
def save_merged_data_trace (output_path : Str) : List FsOp :=
  [FsOp.writeOut (save_target output_path)]

/-- One input root for discovery: its path, whether os.path.exists holds,
and the non-hidden regular files below it in the order the recursive glob
walk visits them (paths relative to the root). -/
structure Folder where
  path : Str
  present : Bool
  files : List Str
deriving DecidableEq

def isHidden (nm : Str) : Bool :=
  match nm with
  | [] => false
  | c :: _ => c = '.'

/-- Whether glob.glob(os.path.join(root, '**', '*' + ext), recursive=True)
lists this relative path: its base name ends with ext literally (glob
matching is case-sensitive on POSIX) and does not start with a dot
(a '*' pattern never matches a leading dot). -/
def globMatch (ext : Str) (rel : Str) : Bool :=
  List.isSuffixOf ext (baseName rel) && !isHidden (baseName rel)

def underFolder (fo : Folder) (rel : Str) : Str := fo.path ++ '/' :: rel

/-- DataMerger.scan_folders lines 35-52 and
MultiSheetMerger.scan_and_collect_files lines 73-90 (before the cap): for
each root in input order — skipping absent roots — run one glob per
supported format, in the order of the formats list, appending every batch. -/
def scan_folders (formats : List Str) (folders : List Folder) : List Str :=
  folders.foldl
    (fun all folder =>
      if folder.present then
        all ++ formats.foldl
          (fun acc ext =>
            acc ++ (folder.files.filter (fun rel => globMatch ext rel)).map
              (underFolder folder))
          []
      else all)
    []

/-- List concat-map helper used to characterize the fold above. -/
def catMaps {α β : Type} (f : α → List β) (l : List α) : List β :=
  (l.map f).flatten

/-- Modelled from the spec claim (C6 wording): the ordered union by
directory input order then filesystem traversal order of the files whose
extension matches case-insensitively.  This is the claim's description, kept
for comparison with scan_folders, which is the code's behaviour. -/
def spec_discovery (formats : List Str) (folders : List Folder) : List Str :=
  catMaps
    (fun fo =>
      (fo.files.filter
        (fun rel => formats.any (fun ext => List.isSuffixOf ext (toLowerStr (baseName rel))))).map
        (underFolder fo))
    (folders.filter (fun fo => fo.present))

/-- pandas Series.expanding().max() after the first element. -/
def expandingMaxAux (m : ℚ) : List ℚ → List ℚ
  | [] => []
  | x :: xs => max m x :: expandingMaxAux (max m x) xs

/-- pandas values.expanding().max(): the running maximum of the series. -/
def expandingMax : List ℚ → List ℚ
  | [] => []
  | x :: xs => x :: expandingMaxAux x xs

/-- pandas Series.min(): none on an empty series (pandas yields NaN). -/
def listMinQ : List ℚ → Option ℚ
  | [] => none
  | x :: xs => some (xs.foldl min x)

/-- _calculate_max_drawdown of pdf_report_generator.py lines 356-360 and
advanced_data_analyzer.py lines 403-407:
peak = values.expanding().max(); drawdown = (values - peak) / peak;
return drawdown.min().  Division is exact rational division here (the
Python floats are modelled over ℚ). -/
def calculate_max_drawdown (values : List ℚ) : Option ℚ :=
  listMinQ (List.zipWith (fun v p => (v - p) / p) values (expandingMax values))

/-- Maximum of a non-empty list (0 on the empty list, never used there). -/
def listMax1 : List ℚ → ℚ
  | [] => 0
  | x :: xs => xs.foldl max x

/-- Minimum of a non-empty list (0 on the empty list, never used there). -/
def listMin1 : List ℚ → ℚ
  | [] => 0
  | x :: xs => xs.foldl min x

/-- The running historical peak at each time t, written independently of
expandingMax: the maximum of the first t+1 values. -/
def runningPeaks (values : List ℚ) : List ℚ :=
  (List.range values.length).map (fun t => listMax1 (values.take (t + 1)))

/-- The claim's formula: the minimum over time of
(value − running max) / running max. -/
def spec_max_drawdown (values : List ℚ) : Option ℚ :=
  listMinQ (List.zipWith (fun v p => (v - p) / p) values (runningPeaks values))

/-- The 'max_drawdown' of FinanceDataAnalyzer.risk_analysis,
finance_data_merger.py line 293: (col_data.max() - col_data.min()) /
col_data.max() if col_data.max() != 0 else 0 — the global range over the
global maximum, not a running-peak drawdown. -/
def finance_risk_max_drawdown (values : List ℚ) : ℚ :=
  if listMax1 values ≠ 0 then (listMax1 values - listMin1 values) / listMax1 values
  else 0

/-- A one-column, three-row table used as concrete read content. -/
def tableA : Table := { cols := [(("A").toList, CellVal.data 0)], nrows := 3 }

/-- A two-column, two-row table used as concrete read content. -/
def tableB : Table :=
  { cols := [(("B").toList, CellVal.data 1), (("C").toList, CellVal.data 2)], nrows := 2 }

/-- A table with a column but zero rows: pandas counts it as empty. -/
def tableEmpty : Table := { cols := [(("A").toList, CellVal.data 0)], nrows := 0 }

/-- CSV attempts that all fail to decode (placeholder for non-CSV files). -/
def noCsv : CsvAttempts :=
  ⟨RRes.err PyErr.unicodeDecodeError, RRes.err PyErr.unicodeDecodeError,
    RRes.err PyErr.unicodeDecodeError⟩

/-- A healthy CSV file named report.csv. -/
def demoReportCsv : SrcFile :=
  { filename := ("report.csv").toList
    folder := ("data").toList
    excelRead := RRes.err PyErr.unicodeDecodeError
    csvRead := ⟨RRes.ok tableA, RRes.err PyErr.unicodeDecodeError,
      RRes.err PyErr.unicodeDecodeError⟩
    writeOk := true }

/-- A healthy Excel file named report.xlsx — same stem as report.csv. -/
def demoReportXlsx : SrcFile :=
  { filename := ("report.xlsx").toList
    folder := ("data").toList
    excelRead := RRes.ok tableB
    csvRead := noCsv
    writeOk := true }

def boomMsg : Str := ("boom").toList

/-- A corrupt Excel file: reading it raises a non-Unicode exception. -/
def badXlsx : SrcFile :=
  { filename := ("bad.xlsx").toList
    folder := ("data").toList
    excelRead := RRes.err (PyErr.otherError boomMsg)
    csvRead := noCsv
    writeOk := true }

/-- A CSV that reads fine but holds zero data rows. -/
def emptyCsv : SrcFile :=
  { filename := ("empty.csv").toList
    folder := ("data").toList
    excelRead := RRes.err PyErr.unicodeDecodeError
    csvRead := ⟨RRes.ok tableEmpty, RRes.err PyErr.unicodeDecodeError,
      RRes.err PyErr.unicodeDecodeError⟩
    writeOk := true }

def parseMsg : Str := ("Error tokenizing data").toList

/-- CSV attempts whose utf-8 pass decodes but raises a parser error, while
gbk and latin-1 would both return a table. -/
def parseErrAttempts : CsvAttempts :=
  ⟨RRes.err (PyErr.otherError parseMsg), RRes.ok tableA, RRes.ok tableA⟩

/-- A CSV file carrying `parseErrAttempts`. -/
def parseErrCsv : SrcFile :=
  { filename := ("weird.csv").toList
    folder := ("data").toList
    excelRead := RRes.err PyErr.unicodeDecodeError
    csvRead := parseErrAttempts
    writeOk := true }

/-- The final state of mainRun [badXlsx]: nothing processed, one read
failure recorded. -/
def cexSt : MergeState :=
  { processed_files := 0
    error_files := [(("data/bad.xlsx").toList, ("读取失败: boom").toList)]
    sheet_info := []
    total_rows := 0 }

/-- The final state of mergeRun [demoReportCsv, badXlsx]. -/
def stDemoRun : MergeState :=
  { processed_files := 1
    error_files := [(("data/bad.xlsx").toList, ("读取失败: boom").toList)]
    sheet_info := [⟨("report").toList, ("report.csv").toList,
      ("data/report.csv").toList, 3, 1, ("data").toList⟩]
    total_rows := 3 }

def outDemo : Str := ("merged_data.xlsx").toList

/-- A root whose traversal visits a lower-case CSV, then an XLSX, then an
upper-case CSV. -/
def demoFolder : Folder :=
  { path := ("root").toList
    present := true
    files := [("data.csv").toList, ("book.xlsx").toList, ("UPPER.CSV").toList] }

/-- A one-column, one-row table for the provenance theorems. -/
def t8 : Table := { cols := [(("A").toList, CellVal.data 0)], nrows := 1 }

/-- A CSV file named f.csv inside directory d. -/
def fDemo8 : SrcFile :=
  { filename := ("f.csv").toList
    folder := ("d").toList
    excelRead := RRes.err PyErr.unicodeDecodeError
    csvRead := ⟨RRes.ok t8, RRes.err PyErr.unicodeDecodeError,
      RRes.err PyErr.unicodeDecodeError⟩
    writeOk := true }

def ratesDemo : List ℚ := [1, 2]

/-- The sequential character-replacement loop is the pointwise substitution:
a character already replaced by an underscore is left alone by every later
pass, and all other characters are handled independently. -/
lemma foldl_replace_eq_map (l : List Char) :
    ∀ s : Str, l.foldl (fun acc c => replaceChar c acc) s
      = s.map (fun ch => if ch ∈ l then '_' else ch) := by
  induction l with
  | nil =>
    intro s
    simp
  | cons c l ih =>
    intro s
    rw [List.foldl_cons, ih (replaceChar c s)]
    unfold replaceChar
    rw [List.map_map]
    apply List.map_congr_left
    intro ch _
    by_cases hc : ch = c
    · subst hc
      simp
    · simp [Function.comp, hc]

/-- sanitize is the pointwise substitution of forbidden characters. -/
lemma sanitize_eq_map (s : Str) : sanitize s = s.map substInvalid := by
  unfold sanitize substInvalid
  exact foldl_replace_eq_map invalid_chars s

lemma sanitize_length (s : Str) : (sanitize s).length = s.length := by
  rw [sanitize_eq_map, List.length_map]

lemma sanitize_not_invalid (s : Str) : ∀ c ∈ sanitize s, c ∉ invalid_chars := by
  intro c hc
  rw [sanitize_eq_map, List.mem_map] at hc
  obtain ⟨ch, -, rfl⟩ := hc
  unfold substInvalid
  by_cases h : ch ∈ invalid_chars
  · simp only [h, if_pos]
    decide
  · simp [h]

lemma pyStem_ne_nil (s : Str) (hs : s ≠ []) : pyStem s ≠ [] := by
  cases h : lastIdxOf '.' s with
  | none =>
    unfold pyStem
    rw [h]
    exact hs
  | some i =>
    have hred : pyStem s = if 0 < i ∧ i < s.length - 1 then s.take i else s := by
      unfold pyStem
      rw [h]
    rw [hred]
    by_cases hcond : 0 < i ∧ i < s.length - 1
    · rw [if_pos hcond]
      obtain ⟨h1, h2⟩ := hcond
      have hlen : (s.take i).length = i := by
        rw [List.length_take]
        omega
      intro hnil
      rw [hnil] at hlen
      simp at hlen
      omega
    · rw [if_neg hcond]
      exact hs

lemma clean_length_le (fn : Str) :
    (clean_sheet_name fn).length ≤ MAX_SHEET_NAME_LEN := by
  unfold clean_sheet_name
  split
  · next h =>
    simp only [List.length_append, List.length_take]
    unfold MAX_SHEET_NAME_LEN at h ⊢
    simp only [dots3, List.length_cons, List.length_nil]
    omega
  · next h => omega

lemma clean_length_pos (fn : Str) (hfn : fn ≠ []) :
    0 < (clean_sheet_name fn).length := by
  have hstem := pyStem_ne_nil fn hfn
  have hlen : 0 < (sanitize (pyStem fn)).length := by
    rw [sanitize_length]
    exact List.length_pos.mpr hstem
  unfold clean_sheet_name
  split
  · simp [dots3]
  · next h => exact hlen

lemma clean_no_invalid (fn : Str) :
    ∀ c ∈ clean_sheet_name fn, c ∉ invalid_chars := by
  intro c hc
  unfold clean_sheet_name at hc
  have hsan := sanitize_not_invalid (pyStem fn)
  split at hc
  · rcases List.mem_append.mp hc with h | h
    · exact hsan c (List.take_subset _ _ h)
    · have : c = '.' := by
        simpa [dots3] using h
      subst this
      decide
  · exact hsan c hc

lemma clean_truncated (fn : Str)
    (h : MAX_SHEET_NAME_LEN < (sanitize (pyStem fn)).length) :
    (clean_sheet_name fn).length = MAX_SHEET_NAME_LEN ∧
      (clean_sheet_name fn).drop (MAX_SHEET_NAME_LEN - 3) = dots3 := by
  unfold clean_sheet_name
  rw [if_pos h]
  constructor
  · simp only [List.length_append, List.length_take]
    unfold MAX_SHEET_NAME_LEN at h ⊢
    simp only [dots3, List.length_cons, List.length_nil]
    omega
  · have hlen : ((sanitize (pyStem fn)).take (MAX_SHEET_NAME_LEN - 3)).length
        = MAX_SHEET_NAME_LEN - 3 := by
      rw [List.length_take]
      omega
    exact List.drop_left' hlen

lemma pyNatStrAux_len1 (fuel n : Nat) (h : n < 10) :
    (pyNatStrAux fuel n).length ≤ 1 := by
  cases fuel with
  | zero => simp [pyNatStrAux]
  | succ f => simp [pyNatStrAux, h]

lemma pyNatStrAux_len2 (fuel n : Nat) (h : n < 100) :
    (pyNatStrAux fuel n).length ≤ 2 := by
  cases fuel with
  | zero => simp [pyNatStrAux]
  | succ f =>
    unfold pyNatStrAux
    split
    · simp
    · have hdiv : n / 10 < 10 := by omega
      have := pyNatStrAux_len1 f (n / 10) hdiv
      simp only [List.length_append, List.length_cons, List.length_nil]
      omega

lemma pyNatStrAux_len3 (fuel n : Nat) (h : n < 1000) :
    (pyNatStrAux fuel n).length ≤ 3 := by
  cases fuel with
  | zero => simp [pyNatStrAux]
  | succ f =>
    unfold pyNatStrAux
    split
    · simp
    · have hdiv : n / 10 < 100 := by omega
      have := pyNatStrAux_len2 f (n / 10) hdiv
      simp only [List.length_append, List.length_cons, List.length_nil]
      omega

lemma pyNatStr_len3 (n : Nat) (h : n < 1000) : (pyNatStr n).length ≤ 3 :=
  pyNatStrAux_len3 (n + 1) n h

lemma mkCandidate_len (orig : Str) (k : Nat)
    (ho : orig.length ≤ MAX_SHEET_NAME_LEN) (hk : k < 1000) :
    (mkCandidate orig k).length ≤ MAX_SHEET_NAME_LEN := by
  have hd := pyNatStr_len3 k hk
  unfold mkCandidate
  unfold MAX_SHEET_NAME_LEN at ho ⊢
  split
  · next h =>
    simp only [List.length_append, List.length_take, List.length_cons]
    omega
  · next h =>
    simp only [List.length_append, List.length_cons]
    omega

lemma mkCandidateEasy_len (orig : Str) (k : Nat) (hk : k < 1000) :
    (mkCandidateEasy orig k).length ≤ MAX_SHEET_NAME_LEN := by
  have hd := pyNatStr_len3 k hk
  unfold mkCandidateEasy MAX_SHEET_NAME_LEN
  simp only [List.length_append, List.length_take, List.length_cons]
  omega

lemma uniquify_not_mem (o : Str) (ex : List Str) :
    ∀ (fuel c : Nat) (cur n : Str), uniquify o ex fuel c cur = some n → n ∉ ex := by
  intro fuel
  induction fuel with
  | zero =>
    intro c cur n h
    unfold uniquify at h
    split at h
    · exact absurd h (by simp)
    · next hmem =>
      cases h
      exact hmem
  | succ f ih =>
    intro c cur n h
    unfold uniquify at h
    split at h
    · exact ih (c + 1) (mkCandidate o c) n h
    · next hmem =>
      cases h
      exact hmem

lemma uniquify_shape (o : Str) (ex : List Str) :
    ∀ (fuel c : Nat) (cur n : Str), uniquify o ex fuel c cur = some n →
      n = cur ∨ ∃ k, c ≤ k ∧ k < c + fuel ∧ n = mkCandidate o k := by
  intro fuel
  induction fuel with
  | zero =>
    intro c cur n h
    unfold uniquify at h
    split at h
    · exact absurd h (by simp)
    · cases h
      exact Or.inl rfl
  | succ f ih =>
    intro c cur n h
    unfold uniquify at h
    split at h
    · rcases ih (c + 1) (mkCandidate o c) n h with h1 | ⟨k, hk1, hk2, hk3⟩
      · exact Or.inr ⟨c, le_refl c, by omega, h1⟩
      · exact Or.inr ⟨k, by omega, by omega, hk3⟩
    · cases h
      exact Or.inl rfl

lemma uniquifyEasy_not_mem (o : Str) (ex : List Str) :
    ∀ (fuel c : Nat) (cur n : Str), uniquifyEasy o ex fuel c cur = some n → n ∉ ex := by
  intro fuel
  induction fuel with
  | zero =>
    intro c cur n h
    unfold uniquifyEasy at h
    split at h
    · exact absurd h (by simp)
    · next hmem =>
      cases h
      exact hmem
  | succ f ih =>
    intro c cur n h
    unfold uniquifyEasy at h
    split at h
    · exact ih (c + 1) (mkCandidateEasy o c) n h
    · next hmem =>
      cases h
      exact hmem

lemma uniquifyEasy_shape (o : Str) (ex : List Str) :
    ∀ (fuel c : Nat) (cur n : Str), uniquifyEasy o ex fuel c cur = some n →
      n = cur ∨ ∃ k, c ≤ k ∧ k < c + fuel ∧ n = mkCandidateEasy o k := by
  intro fuel
  induction fuel with
  | zero =>
    intro c cur n h
    unfold uniquifyEasy at h
    split at h
    · exact absurd h (by simp)
    · cases h
      exact Or.inl rfl
  | succ f ih =>
    intro c cur n h
    unfold uniquifyEasy at h
    split at h
    · rcases ih (c + 1) (mkCandidateEasy o c) n h with h1 | ⟨k, hk1, hk2, hk3⟩
      · exact Or.inr ⟨c, le_refl c, by omega, h1⟩
      · exact Or.inr ⟨k, by omega, by omega, hk3⟩
    · cases h
      exact Or.inl rfl

lemma allocate_not_mem {fn : Str} {ex : List Str} {n : Str}
    (h : allocate_sheet_name fn ex = some n) : n ∉ ex :=
  uniquify_not_mem _ ex _ _ _ _ h

lemma allocate_len {fn : Str} {ex : List Str} {n : Str} (hex : ex.length ≤ 998)
    (h : allocate_sheet_name fn ex = some n) : n.length ≤ MAX_SHEET_NAME_LEN := by
  rcases uniquify_shape _ ex _ _ _ _ h with h1 | ⟨k, hk1, hk2, hk3⟩
  · rw [h1]
    exact clean_length_le fn
  · rw [hk3]
    exact mkCandidate_len _ k (clean_length_le fn) (by omega)

lemma allocate_easy_not_mem {fn : Str} {ex : List Str} {n : Str}
    (h : allocate_easy fn ex = some n) : n ∉ ex :=
  uniquifyEasy_not_mem _ ex _ _ _ _ h

lemma allocate_easy_len {fn : Str} {ex : List Str} {n : Str} (hex : ex.length ≤ 998)
    (h : allocate_easy fn ex = some n) : n.length ≤ MAX_SHEET_NAME_LEN := by
  rcases uniquifyEasy_shape _ ex _ _ _ _ h with h1 | ⟨k, hk1, hk2, hk3⟩
  · rw [h1]
    exact clean_length_le fn
  · rw [hk3]
    exact mkCandidateEasy_len _ k (by omega)

lemma nodup_append_singleton {α : Type} (l : List α) (a : α)
    (hl : l.Nodup) (ha : a ∉ l) : (l ++ [a]).Nodup := by
  simp [List.nodup_append, hl, ha]

lemma readData_isSome (f : SrcFile) (hsupp : supportedExt f) :
    (readData f).isSome := by
  unfold supportedExt SUPPORTED_FORMATS at hsupp
  unfold readData
  rcases List.mem_cons.mp hsupp with h | hrest
  · rw [if_pos (Or.inl h)]
    simp
  · rcases List.mem_cons.mp hrest with h | hrest2
    · have h1 : ¬(csvExt = xlsxExt ∨ csvExt = xlsExt) := by decide
      rw [h, if_neg h1, if_pos rfl]
      simp
    · rcases List.mem_cons.mp hrest2 with h | habs
      · rw [if_pos (Or.inr h)]
        simp
      · simp at habs

/-- One loop iteration either leaves the allocated names alone or appends a
fresh name, bounded in length when fewer than 999 names exist. -/
lemma step_names (st : MergeState) (f : SrcFile) (st' : MergeState)
    (h : step st f = some st') :
    sheetNames st' = sheetNames st ∨
      ∃ nm, sheetNames st' = sheetNames st ++ [nm] ∧ nm ∉ sheetNames st ∧
        ((sheetNames st).length ≤ 998 → nm.length ≤ MAX_SHEET_NAME_LEN) := by
  unfold step at h
  split at h
  · cases h
    exact Or.inl rfl
  · cases h
    exact Or.inl rfl
  · split at h
    · exact absurd h (by simp)
    · next nm halloc =>
      split at h
      · cases h
        refine Or.inr ⟨nm, ?_, allocate_not_mem halloc, fun hl => allocate_len hl halloc⟩
        simp [sheetNames]
      · cases h
        exact Or.inl rfl

/-- Invariant of the whole loop: allocated names stay distinct and within
the 31-character bound, as long as at most 999 files are processed. -/
lemma mergeRunAux_names : ∀ (fs : List SrcFile) (st st' : MergeState),
    mergeRunAux st fs = some st' →
    (sheetNames st).Nodup →
    (∀ nm ∈ sheetNames st, nm.length ≤ MAX_SHEET_NAME_LEN) →
    (sheetNames st).length + fs.length ≤ 999 →
    (sheetNames st').Nodup ∧
      ∀ nm ∈ sheetNames st', nm.length ≤ MAX_SHEET_NAME_LEN := by
  intro fs
  induction fs with
  | nil =>
    intro st st' h hnd hlen _
    cases h
    exact ⟨hnd, hlen⟩
  | cons f fs ih =>
    intro st st' h hnd hlen hbound
    unfold mergeRunAux at h
    split at h
    · exact Option.noConfusion h
    · next st1 hstep =>
      rcases step_names st f st1 hstep with hsame | ⟨nm, happ, hnotmem, hnmlen⟩
      · refine ih st1 st' h (hsame ▸ hnd) (hsame ▸ hlen) ?_
        rw [hsame]
        simp only [List.length_cons] at hbound
        omega
      · have hex : (sheetNames st).length ≤ 998 := by
          simp only [List.length_cons] at hbound
          omega
        refine ih st1 st' h ?_ ?_ ?_
        · rw [happ]
          exact nodup_append_singleton _ _ hnd hnotmem
        · rw [happ]
          intro x hx
          rcases List.mem_append.mp hx with hx | hx
          · exact hlen x hx
          · have : x = nm := by simpa using hx
            rw [this]
            exact hnmlen hex
        · rw [happ]
          simp only [List.length_append, List.length_singleton, List.length_nil,
            List.length_cons] at hbound ⊢
          omega

/-- Processing one supported file settles it exactly once: as a processed
sheet or as an error entry. -/
lemma step_counts (st : MergeState) (f : SrcFile) (st' : MergeState)
    (hsupp : supportedExt f) (h : step st f = some st') :
    st'.processed_files + st'.error_files.length
      = st.processed_files + st.error_files.length + 1 := by
  unfold step at h
  split at h
  · next hrd =>
    have := readData_isSome f hsupp
    rw [hrd] at this
    simp at this
  · cases h
    simp only [List.length_append, List.length_singleton, List.length_nil,
      List.length_cons]
    omega
  · split at h
    · exact absurd h (by simp)
    · split at h
      · cases h
        simp
        omega
      · cases h
        simp only [List.length_append, List.length_singleton, List.length_nil,
          List.length_cons]
        omega

lemma step_mono (st : MergeState) (f : SrcFile) (st' : MergeState)
    (h : step st f = some st') :
    (∀ i ∈ st.sheet_info, i ∈ st'.sheet_info) ∧
      (∀ e ∈ st.error_files, e ∈ st'.error_files) := by
  unfold step at h
  split at h
  · cases h
    exact ⟨fun i hi => hi, fun e he => he⟩
  · cases h
    exact ⟨fun i hi => hi, fun e he => List.mem_append_left _ he⟩
  · split at h
    · exact absurd h (by simp)
    · split at h
      · cases h
        exact ⟨fun i hi => List.mem_append_left _ hi, fun e he => he⟩
      · cases h
        exact ⟨fun i hi => hi, fun e he => List.mem_append_left _ he⟩

lemma mergeRunAux_mono : ∀ (fs : List SrcFile) (st st' : MergeState),
    mergeRunAux st fs = some st' →
    (∀ i ∈ st.sheet_info, i ∈ st'.sheet_info) ∧
      (∀ e ∈ st.error_files, e ∈ st'.error_files) := by
  intro fs
  induction fs with
  | nil =>
    intro st st' h
    cases h
    exact ⟨fun i hi => hi, fun e he => he⟩
  | cons f fs ih =>
    intro st st' h
    unfold mergeRunAux at h
    split at h
    · exact Option.noConfusion h
    · next st1 hstep =>
      obtain ⟨hs1, he1⟩ := step_mono st f st1 hstep
      obtain ⟨hs2, he2⟩ := ih st1 st' h
      exact ⟨fun i hi => hs2 i (hs1 i hi), fun e he => he2 e (he1 e he)⟩

/-- A supported file is recorded by its own step, as sheet or as error. -/
lemma step_records (st : MergeState) (f : SrcFile) (st' : MergeState)
    (hsupp : supportedExt f) (h : step st f = some st') :
    (∃ i ∈ st'.sheet_info, i.file_path = fullPath f) ∨
      (∃ e ∈ st'.error_files, e.1 = fullPath f) := by
  unfold step at h
  split at h
  · next hrd =>
    have := readData_isSome f hsupp
    rw [hrd] at this
    simp at this
  · next e hrd =>
    cases h
    refine Or.inr ⟨(fullPath f, readFailText e), ?_, rfl⟩
    exact List.mem_append_right _ (List.mem_singleton.mpr rfl)
  · next t hrd =>
    split at h
    · exact absurd h (by simp)
    · next nm halloc =>
      split at h
      · cases h
        refine Or.inl
          ⟨⟨nm, f.filename, fullPath f, t.nrows, t.cols.length, f.folder⟩, ?_, rfl⟩
        exact List.mem_append_right _ (List.mem_singleton.mpr rfl)
      · cases h
        refine Or.inr ⟨(fullPath f, writeFailText), ?_, rfl⟩
        exact List.mem_append_right _ (List.mem_singleton.mpr rfl)

lemma mergeRunAux_counts : ∀ (fs : List SrcFile) (st st' : MergeState),
    (∀ f ∈ fs, supportedExt f) → mergeRunAux st fs = some st' →
    st'.processed_files + st'.error_files.length
      = st.processed_files + st.error_files.length + fs.length := by
  intro fs
  induction fs with
  | nil =>
    intro st st' _ h
    cases h
    simp
  | cons f fs ih =>
    intro st st' hsupp h
    unfold mergeRunAux at h
    split at h
    · exact Option.noConfusion h
    · next st1 hstep =>
      have h1 := step_counts st f st1 (hsupp f (List.mem_cons_self f fs)) hstep
      have h2 := ih st1 st' (fun g hg => hsupp g (List.mem_cons_of_mem f hg)) h
      simp only [List.length_cons]
      omega

lemma mergeRunAux_records : ∀ (fs : List SrcFile) (st st' : MergeState),
    (∀ f ∈ fs, supportedExt f) → mergeRunAux st fs = some st' →
    ∀ f ∈ fs, (∃ i ∈ st'.sheet_info, i.file_path = fullPath f) ∨
      (∃ e ∈ st'.error_files, e.1 = fullPath f) := by
  intro fs
  induction fs with
  | nil =>
    intro st st' _ _ f hf
    simp at hf
  | cons g fs ih =>
    intro st st' hsupp h f hf
    unfold mergeRunAux at h
    split at h
    · exact Option.noConfusion h
    · next st1 hstep =>
      rcases List.mem_cons.mp hf with rfl | hmem
      · rcases step_records st f st1 (hsupp f (List.mem_cons_self f fs)) hstep with
          ⟨i, hi, hip⟩ | ⟨e, he, hep⟩
        · exact Or.inl ⟨i, (mergeRunAux_mono fs st1 st' h).1 i hi, hip⟩
        · exact Or.inr ⟨e, (mergeRunAux_mono fs st1 st' h).2 e he, hep⟩
      · exact ih st1 st' (fun x hx => hsupp x (List.mem_cons_of_mem g hx)) h f hmem

lemma step_readcounts (st : MergeState) (f : SrcFile) (st' : MergeState)
    (hsupp : supportedExt f) (hw : f.writeOk = true) (h : step st f = some st') :
    st'.processed_files = st.processed_files + (if readOk f then 1 else 0) ∧
      st'.error_files.length
        = st.error_files.length + (if readOk f then 0 else 1) := by
  unfold step at h
  split at h
  · next hrd =>
    have := readData_isSome f hsupp
    rw [hrd] at this
    simp at this
  · next e hrd =>
    have hro : readOk f = false := by
      unfold readOk
      rw [hrd]
    cases h
    rw [hro]
    simp
  · next t hrd =>
    have hro : readOk f = true := by
      unfold readOk
      rw [hrd]
    split at h
    · exact absurd h (by simp)
    · split at h
      · cases h
        rw [hro]
        simp
      · next hwn =>
        exact absurd hw hwn

lemma mergeRunAux_readcounts : ∀ (fs : List SrcFile) (st st' : MergeState),
    (∀ f ∈ fs, supportedExt f ∧ f.writeOk = true) →
    mergeRunAux st fs = some st' →
    st'.processed_files
        = st.processed_files + (fs.filter (fun f => readOk f)).length ∧
      st'.error_files.length
        = st.error_files.length + (fs.filter (fun f => !readOk f)).length := by
  intro fs
  induction fs with
  | nil =>
    intro st st' _ h
    cases h
    simp
  | cons f fs ih =>
    intro st st' hsupp h
    unfold mergeRunAux at h
    split at h
    · exact Option.noConfusion h
    · next st1 hstep =>
      obtain ⟨hp1, he1⟩ := step_readcounts st f st1
        (hsupp f (List.mem_cons_self f fs)).1 (hsupp f (List.mem_cons_self f fs)).2 hstep
      obtain ⟨hp2, he2⟩ := ih st1 st'
        (fun g hg => hsupp g (List.mem_cons_of_mem f hg)) h
      cases hro : readOk f with
      | true =>
        rw [hro] at hp1 he1
        simp only [List.filter_cons, hro, Bool.not_true, List.length_cons]
        constructor
        · rw [hp2, hp1]
          simp
          omega
        · rw [he2, he1]
          simp
      | false =>
        rw [hro] at hp1 he1
        simp only [List.filter_cons, hro, Bool.not_false, List.length_cons]
        constructor
        · rw [hp2, hp1]
          simp
        · rw [he2, he1]
          simp
          omega

/-- A settled file advances data_merger's processed-or-failed count by one. -/
lemma dm_step_count (st : DmState) (f : SrcFile) (hs : dmSettled f = true) :
    (dm_step st f).file_count + (dm_step st f).error_files.length
      = st.file_count + st.error_files.length + 1 := by
  unfold dm_step
  cases h : dm_readData f with
  | none =>
    unfold dmSettled at hs
    rw [h] at hs
    simp at hs
  | some r =>
    cases r with
    | err e =>
      simp only [List.length_append, List.length_cons, List.length_nil]
      omega
    | ok t =>
      unfold dmSettled at hs
      rw [h] at hs
      simp only [Bool.not_eq_true'] at hs
      simp [hs]
      omega

lemma dm_merge_data_counts : ∀ (files : List SrcFile) (st : DmState),
    (∀ f ∈ files, dmSettled f = true) →
    (files.foldl dm_step st).file_count + (files.foldl dm_step st).error_files.length
      = st.file_count + st.error_files.length + files.length := by
  intro files
  induction files with
  | nil =>
    intro st _
    simp
  | cons f fs ih =>
    intro st hs
    rw [List.foldl_cons]
    have h1 := dm_step_count st f (hs f (List.mem_cons_self f fs))
    have h2 := ih (dm_step st f) (fun g hg => hs g (List.mem_cons_of_mem f hg))
    simp only [List.length_cons]
    omega

lemma setCol_append (t : Table) (name : Str) (v : CellVal)
    (h : name ∉ t.cols.map Prod.fst) :
    setCol t name v = { t with cols := t.cols ++ [(name, v)] } := by
  unfold setCol
  rw [if_neg h]

lemma catMaps_nil {α β : Type} (g : α → List β) : catMaps g ([] : List α) = [] := by
  simp [catMaps]

lemma catMaps_cons {α β : Type} (g : α → List β) (x : α) (l : List α) :
    catMaps g (x :: l) = g x ++ catMaps g l := by
  simp [catMaps]

lemma foldl_append_eq {α β : Type} (g : α → List β) :
    ∀ (l : List α) (init : List β),
      l.foldl (fun acc x => acc ++ g x) init = init ++ catMaps g l := by
  intro l
  induction l with
  | nil =>
    intro init
    simp [catMaps]
  | cons x l ih =>
    intro init
    rw [List.foldl_cons, ih, catMaps_cons, List.append_assoc]

lemma foldl_ite_append {α β : Type} (p : α → Bool) (g : α → List β) :
    ∀ (l : List α) (init : List β),
      l.foldl (fun acc x => if p x then acc ++ g x else acc) init
        = init ++ catMaps g (l.filter p) := by
  intro l
  induction l with
  | nil =>
    intro init
    simp [catMaps]
  | cons x l ih =>
    intro init
    rw [List.foldl_cons]
    by_cases h : p x
    · rw [if_pos h, ih]
      simp only [List.filter_cons, h, if_pos, ite_true, catMaps_cons,
        List.append_assoc]
    · rw [if_neg h, ih]
      simp only [List.filter_cons, h, Bool.false_eq_true, ite_false]

/-- The discovery fold, characterized: roots in input order (absent roots
dropped), then formats in list order, then traversal order within each
format. -/
lemma scan_folders_eq (formats : List Str) (folders : List Folder) :
    scan_folders formats folders
      = catMaps
          (fun fo => catMaps
            (fun ext =>
              (fo.files.filter (fun rel => globMatch ext rel)).map (underFolder fo))
            formats)
          (folders.filter (fun fo => fo.present)) := by
  unfold scan_folders
  rw [foldl_ite_append (fun fo => fo.present)
    (fun fo => formats.foldl
      (fun acc ext =>
        acc ++ (fo.files.filter (fun rel => globMatch ext rel)).map (underFolder fo))
      []) folders []]
  simp only [foldl_append_eq, List.nil_append]

lemma expandingMaxAux_eq (xs : List ℚ) :
    ∀ m : ℚ, expandingMaxAux m xs
      = (List.range xs.length).map (fun t => (xs.take (t + 1)).foldl max m) := by
  induction xs with
  | nil =>
    intro m
    simp [expandingMaxAux]
  | cons y ys ih =>
    intro m
    rw [expandingMaxAux, ih (max m y), List.length_cons, List.range_succ_eq_map]
    simp only [List.map_cons, List.map_map, Function.comp, List.take_succ_cons,
      List.foldl_cons, List.take_zero, List.foldl_nil]
    rfl

/-- The written running maximum (expanding().max()) is at every index the
maximum of the values seen so far. -/
lemma expandingMax_eq_runningPeaks (values : List ℚ) :
    expandingMax values = runningPeaks values := by
  cases values with
  | nil => simp [expandingMax, runningPeaks]
  | cons x xs =>
    unfold runningPeaks
    rw [show expandingMax (x :: xs) = x :: expandingMaxAux x xs from rfl,
      List.length_cons, List.range_succ_eq_map, expandingMaxAux_eq]
    simp only [List.map_cons, List.map_map, Function.comp, listMax1,
      List.take_succ_cons, List.foldl_cons, List.take_zero, List.foldl_nil]
    rfl

/-- Claim C1, amended: with zero discovered files the run stops early — the
writer is never opened and the state is untouched (a normal return, not a
failure exit); with at least one discovered file the Excel writer is opened
on the output path, creating the file, before any file is read — even when
every read fails; and when every write succeeds the final counts are
processed = number of files whose read succeeds and failed = number whose
read raises, so one corrupt file among N gives failed = 1 and
processed = N − 1. -/
theorem run_failure_semantics :
    (∀ d : List SrcFile, capFiles d = [] → mainRun d = some ⟨false, initState⟩) ∧
    (∀ (d : List SrcFile) (out : RunOutcome), mainRun d = some out →
      capFiles d ≠ [] → out.writerOpened = true) ∧
    (∀ (d : List SrcFile) (out : RunOutcome),
      (∀ f ∈ capFiles d, supportedExt f ∧ f.writeOk = true) →
      mainRun d = some out →
      out.final.processed_files = ((capFiles d).filter (fun f => readOk f)).length ∧
      out.final.error_files.length
        = ((capFiles d).filter (fun f => !readOk f)).length) := by
  refine ⟨?_, ?_, ?_⟩
  · intro d hd
    unfold mainRun
    rw [hd]
    simp
  · intro d out h hne
    unfold mainRun at h
    rw [if_neg (by
      intro hh
      simp at hh
      exact hne hh)] at h
    rw [Option.map_eq_some'] at h
    obtain ⟨st, hrun, hout⟩ := h
    rw [← hout]
  · intro d out hsupp h
    unfold mainRun at h
    by_cases hemp : (capFiles d).isEmpty
    · rw [if_pos hemp] at h
      cases h
      have hnil : capFiles d = [] := by
        simp at hemp
        exact hemp
      rw [hnil]
      simp [initState]
    · rw [if_neg hemp] at h
      rw [Option.map_eq_some'] at h
      obtain ⟨st, hrun, hout⟩ := h
      have hc := mergeRunAux_readcounts (capFiles d) initState st hsupp hrun
      rw [← hout]
      simpa [initState] using hc

/-- Witness for run_failure_semantics: the empty run returns early, and the
two-file run with one corrupt file ends with processed = 1, failed = 1. -/
theorem run_failure_semantics_inst :
    mainRun ([] : List SrcFile) = some ⟨false, initState⟩ ∧
    stDemoRun.processed_files
        = ((capFiles [demoReportCsv, badXlsx]).filter (fun f => readOk f)).length ∧
    stDemoRun.error_files.length
        = ((capFiles [demoReportCsv, badXlsx]).filter (fun f => !readOk f)).length := by
  refine ⟨run_failure_semantics.1 [] (by decide), ?_, ?_⟩
  · exact (run_failure_semantics.2.2 [demoReportCsv, badXlsx] ⟨true, stDemoRun⟩
      (by decide) (by decide)).1
  · exact (run_failure_semantics.2.2 [demoReportCsv, badXlsx] ⟨true, stDemoRun⟩
      (by decide) (by decide)).2

/-- Claim C1 counterexample: a run over exactly one corrupt file reads zero
files successfully, yet the writer is opened on the output path (the output
file is created) instead of the run aborting with no output. -/
theorem run_failure_semantics_refute :
    ¬ (∀ (d : List SrcFile) (out : RunOutcome), mainRun d = some out →
        out.final.processed_files = 0 → out.writerOpened = false) := by
  intro h
  have hc := h [badXlsx] ⟨true, cexSt⟩ (by decide) (by decide)
  exact absurd hc (by decide)

/-- Claim C2: within one run (the sheet cap keeps it at 200 files) all
allocated sheet names are pairwise distinct; on a collision the loop
appends _1, _2, … until unique, re-truncating the base so every allocated
name still fits in 31 characters; and report.csv with report.xlsx allocate
to report and report_1.  (The easy_multi_sheet_merger allocator obeys the
same freshness and length bounds, last conjuncts.) -/
theorem sheet_names_unique :
    (∀ (files : List SrcFile) (ns : List Str), files.length ≤ MAX_SHEETS →
      (mergeRun files).map sheetNames = some ns →
      ns.Nodup ∧ ∀ nm ∈ ns, nm.length ≤ MAX_SHEET_NAME_LEN) ∧
    (mergeRun [demoReportCsv, demoReportXlsx]).map sheetNames
      = some [("report").toList, ("report_1").toList] ∧
    (∀ (fn : Str) (ex : List Str) (n : Str), ex.length ≤ 998 →
      allocate_easy fn ex = some n → n ∉ ex ∧ n.length ≤ MAX_SHEET_NAME_LEN) := by
  refine ⟨?_, by decide, ?_⟩
  · intro files ns hlen h
    rw [Option.map_eq_some'] at h
    obtain ⟨st, hrun, hns⟩ := h
    have hinv := mergeRunAux_names files initState st hrun
      (by simp [initState, sheetNames])
      (by simp [initState, sheetNames])
      (by
        simp only [initState, sheetNames, List.map_nil, List.length_nil]
        unfold MAX_SHEETS at hlen
        omega)
    rw [← hns]
    exact hinv
  · intro fn ex n hex halloc
    exact ⟨allocate_easy_not_mem halloc, allocate_easy_len hex halloc⟩

/-- Witness for sheet_names_unique: the two-file report run respects the
cap, its two allocated names are distinct, and the easy allocator applied
to report.xlsx against the already-allocated name report yields the fresh
report_1. -/
theorem sheet_names_unique_inst :
    ([demoReportCsv, demoReportXlsx] : List SrcFile).length ≤ MAX_SHEETS ∧
    ([("report").toList, ("report_1").toList] : List Str).Nodup ∧
    (("report_1").toList ∉ [("report").toList] ∧
      (("report_1").toList : Str).length ≤ MAX_SHEET_NAME_LEN) := by
  refine ⟨by decide, ?_, ?_⟩
  · exact (sheet_names_unique.1 [demoReportCsv, demoReportXlsx]
      [("report").toList, ("report_1").toList] (by decide)
      sheet_names_unique.2.1).1
  · exact sheet_names_unique.2.2 (("report.xlsx").toList) [("report").toList]
      (("report_1").toList) (by decide) (by decide)

/-- Claim C3, amended: the forbidden-character list \ / ? * [ ] : has seven
members, not six.  For every non-empty input filename the sanitized sheet
name has length between 1 and 31, contains none of those characters, and
when the sanitized stem exceeds 31 characters the result is the
28-character truncation followed by "...", of length exactly 31 — all
before any collision suffixing. -/
theorem clean_sheet_name_valid (fn : Str) (hfn : fn ≠ []) :
    1 ≤ (clean_sheet_name fn).length ∧
    (clean_sheet_name fn).length ≤ MAX_SHEET_NAME_LEN ∧
    (∀ c ∈ clean_sheet_name fn, c ∉ invalid_chars) ∧
    (MAX_SHEET_NAME_LEN < (sanitize (pyStem fn)).length →
      (clean_sheet_name fn).length = MAX_SHEET_NAME_LEN ∧
        (clean_sheet_name fn).drop (MAX_SHEET_NAME_LEN - 3) = dots3) :=
  ⟨clean_length_pos fn hfn, clean_length_le fn, clean_no_invalid fn,
    clean_truncated fn⟩

/-- Witness for clean_sheet_name_valid at the filename report.csv. -/
theorem clean_sheet_name_valid_inst :
    1 ≤ (clean_sheet_name (("report.csv").toList)).length ∧
    (clean_sheet_name (("report.csv").toList)).length ≤ MAX_SHEET_NAME_LEN ∧
    (∀ c ∈ clean_sheet_name (("report.csv").toList), c ∉ invalid_chars) ∧
    (MAX_SHEET_NAME_LEN < (sanitize (pyStem (("report.csv").toList))).length →
      (clean_sheet_name (("report.csv").toList)).length = MAX_SHEET_NAME_LEN ∧
        (clean_sheet_name (("report.csv").toList)).drop (MAX_SHEET_NAME_LEN - 3)
          = dots3) :=
  clean_sheet_name_valid (("report.csv").toList) (by decide)

/-- Claim C3 counterexample: the claim says the allocator replaces "each of
the six forbidden characters", but the replaced list — the very characters
the claim enumerates — has seven members. -/
theorem invalid_chars_count_refute :
    invalid_chars.length = 7 ∧ ¬ invalid_chars.length = 6 := by
  decide

/-- Claim C4, amended: DataMerger.save_merged_data writes the workbook in
one pass directly to the final output path — its trace is a single in-place
write of the target path, with no temporary file and no rename — so a write
that errors leaves torn content at the output path rather than leaving it
unchanged; the except branch removes nothing. -/
theorem save_writes_directly (out : Str) (fs : Str → Option WContent) :
    save_merged_data_trace out = [FsOp.writeOut (save_target out)] ∧
    (∀ a b, FsOp.renameTo a b ∉ save_merged_data_trace out) ∧
    execTrace fs (save_merged_data_trace out) (some 0) (save_target out)
      = some WContent.torn := by
  refine ⟨rfl, ?_, ?_⟩
  · intro a b hmem
    simp [save_merged_data_trace] at hmem
  · unfold save_merged_data_trace execTrace updateFs
    simp

/-- Claim C4 counterexample: starting from a filesystem with no output file
and failing the very first write, the state of the output path changes — it
now holds a torn file — contradicting the claimed atomicity guarantee. -/
theorem save_not_atomic_refute :
    ¬ (∀ (fs : Str → Option WContent) (i : Nat) (out : Str),
        execTrace fs (save_merged_data_trace out) (some i) out = fs out) := by
  intro h
  have h0 := h (fun _ => none) 0 outDemo
  exact absurd h0 (by decide)

/-- Claim C5, amended: in the multi-sheet merger every attempted file is
settled exactly once — processed + failed = attempted ≤ discovered, and
each attempted file appears in the sheet list or in the error list under
its path; in data_merger the same count invariant holds only for runs in
which no attempted file reads successfully into an empty table, because
such a file is silently skipped — neither counted nor recorded. -/
theorem file_accounting :
    (∀ (files : List SrcFile) (st : MergeState),
      (∀ f ∈ files, supportedExt f) → mergeRun files = some st →
      st.processed_files + st.error_files.length = files.length ∧
      ∀ f ∈ files, (∃ i ∈ st.sheet_info, i.file_path = fullPath f) ∨
        (∃ e ∈ st.error_files, e.1 = fullPath f)) ∧
    (∀ d : List SrcFile, (capFiles d).length ≤ d.length) ∧
    (∀ files : List SrcFile, (∀ f ∈ files, dmSettled f = true) →
      (dm_merge_data files).file_count + (dm_merge_data files).error_files.length
        = files.length) := by
  refine ⟨?_, ?_, ?_⟩
  · intro files st hsupp hrun
    constructor
    · have hc := mergeRunAux_counts files initState st hsupp hrun
      simpa [initState] using hc
    · exact mergeRunAux_records files initState st hsupp hrun
  · intro d
    unfold capFiles
    split
    · rw [List.length_take]
      omega
    · exact le_refl _
  · intro files hs
    have hc := dm_merge_data_counts files ⟨0, [], []⟩ hs
    simpa [dm_merge_data] using hc

/-- Witness for file_accounting: the two-file run (one good, one corrupt)
has 1 + 1 = 2 settled files, the cap never grows the list, and the
one-file data_merger run counts its single non-empty file. -/
theorem file_accounting_inst :
    stDemoRun.processed_files + stDemoRun.error_files.length
        = ([demoReportCsv, badXlsx] : List SrcFile).length ∧
    (capFiles [demoReportCsv, badXlsx]).length
        ≤ ([demoReportCsv, badXlsx] : List SrcFile).length ∧
    (dm_merge_data [fDemo8]).file_count
        + (dm_merge_data [fDemo8]).error_files.length
      = ([fDemo8] : List SrcFile).length := by
  refine ⟨?_, file_accounting.2.1 [demoReportCsv, badXlsx],
    file_accounting.2.2 [fDemo8] (by decide)⟩
  exact (file_accounting.1 [demoReportCsv, badXlsx] stDemoRun
    (by decide) (by decide)).1

/-- Claim C5 counterexample: one attempted file that reads successfully
into an empty table — data_merger counts it neither as processed nor as
failed and records nothing, so processed + failed ≠ attempted. -/
theorem empty_table_silent_drop_refute :
    (dm_merge_data [emptyCsv]).file_count = 0 ∧
    (dm_merge_data [emptyCsv]).error_files = [] ∧
    (dm_merge_data [emptyCsv]).file_count
        + (dm_merge_data [emptyCsv]).error_files.length
      ≠ ([emptyCsv] : List SrcFile).length := by
  refine ⟨by decide, by decide, by decide⟩

/-- Claim C6, amended: discovery returns the union ordered by directory
input order, then by the supported-format list order, then traversal order
within each format; extension matching is the literal lower-case suffix
(case-sensitive, leading-dot names excluded), so an upper-case extension is
not discovered even though it matches case-insensitively; and the scan is
deterministic — a pure function of the filesystem snapshot. -/
theorem discovery_structure :
    (∀ (formats : List Str) (folders : List Folder),
      scan_folders formats folders
        = catMaps
            (fun fo => catMaps
              (fun ext =>
                (fo.files.filter (fun rel => globMatch ext rel)).map (underFolder fo))
              formats)
            (folders.filter (fun fo => fo.present))) ∧
    globMatch csvExt (("UPPER.CSV").toList) = false ∧
    List.isSuffixOf csvExt (toLowerStr (baseName (("UPPER.CSV").toList))) = true ∧
    (∀ (formats : List Str) (folders : List Folder),
      scan_folders formats folders = scan_folders formats folders) :=
  ⟨scan_folders_eq, by decide, by decide, fun _ _ => rfl⟩

/-- Claim C6 counterexample: over a root whose traversal visits data.csv,
book.xlsx, UPPER.CSV in that order, the code returns
[root/book.xlsx, root/data.csv] — grouped by extension, not traversal
order, and missing the upper-case CSV — which differs from the claim's
ordered case-insensitive union. -/
theorem discovery_refute :
    scan_folders SUPPORTED_FORMATS [demoFolder]
        = [("root/book.xlsx").toList, ("root/data.csv").toList] ∧
    (("root/UPPER.CSV").toList) ∉ scan_folders SUPPORTED_FORMATS [demoFolder] ∧
    scan_folders SUPPORTED_FORMATS [demoFolder]
        ≠ spec_discovery SUPPORTED_FORMATS [demoFolder] := by
  refine ⟨by decide, by decide, by decide⟩

/-- Claim C7: the CSV reader accepts exactly the first codec in the fixed
utf-8 / gbk / latin-1 chain that succeeds, and moves to the next codec only
after the previous one fails. -/
theorem csv_encoding_chain (a : CsvAttempts) (t : Table) :
    read_csv_fallback a = RRes.ok t ↔
      a.utf8 = RRes.ok t ∨
      (a.utf8 = RRes.err PyErr.unicodeDecodeError ∧ a.gbk = RRes.ok t) ∨
      (a.utf8 = RRes.err PyErr.unicodeDecodeError ∧
        a.gbk = RRes.err PyErr.unicodeDecodeError ∧ a.latin1 = RRes.ok t) := by
  obtain ⟨u, g, l⟩ := a
  cases u with
  | ok t0 => simp [read_csv_fallback]
  | err e =>
    cases e with
    | unicodeDecodeError =>
      cases g with
      | ok t0 => simp [read_csv_fallback]
      | err e2 =>
        cases e2 with
        | unicodeDecodeError => simp [read_csv_fallback]
        | otherError m => simp [read_csv_fallback]
    | otherError m => simp [read_csv_fallback]

/-- Claim C8, amended: data_merger appends exactly two provenance columns —
the source file name and the full source path (not the source directory) —
while finance_data_merger appends three — file name, directory, and
processing timestamp; in each case the original columns are preserved in
front and the row count is unchanged, provided none of the provenance names
already occurs among the original columns. -/
theorem provenance_columns :
    (∀ (f : SrcFile) (t : Table),
      colSourceFile ∉ t.cols.map Prod.fst → colFilePath ∉ t.cols.map Prod.fst →
      (dm_add_provenance f t).cols
          = t.cols ++ [(colSourceFile, CellVal.strv f.filename),
              (colFilePath, CellVal.strv (fullPath f))] ∧
        (dm_add_provenance f t).nrows = t.nrows) ∧
    (∀ (f : SrcFile) (t : Table),
      finColSource ∉ t.cols.map Prod.fst → finColFolder ∉ t.cols.map Prod.fst →
      finColTime ∉ t.cols.map Prod.fst →
      (finance_add_provenance f t).cols
          = t.cols ++ [(finColSource, CellVal.strv f.filename),
              (finColFolder, CellVal.strv f.folder), (finColTime, CellVal.timev)] ∧
        (finance_add_provenance f t).nrows = t.nrows) := by
  constructor
  · intro f t h1 h2
    have hne : colFilePath ≠ colSourceFile := by decide
    have c1 := setCol_append t colSourceFile (CellVal.strv f.filename) h1
    have h2' : colFilePath
        ∉ (setCol t colSourceFile (CellVal.strv f.filename)).cols.map Prod.fst := by
      rw [c1]
      simp [h2, hne]
    have c2 := setCol_append _ colFilePath (CellVal.strv (fullPath f)) h2'
    unfold dm_add_provenance
    rw [c2, c1]
    exact ⟨by simp, rfl⟩
  · intro f t h1 h2 h3
    have hne21 : finColFolder ≠ finColSource := by decide
    have hne31 : finColTime ≠ finColSource := by decide
    have hne32 : finColTime ≠ finColFolder := by decide
    have c1 := setCol_append t finColSource (CellVal.strv f.filename) h1
    have h2' : finColFolder
        ∉ (setCol t finColSource (CellVal.strv f.filename)).cols.map Prod.fst := by
      rw [c1]
      simp [h2, hne21]
    have c2 := setCol_append _ finColFolder (CellVal.strv f.folder) h2'
    have h3' : finColTime
        ∉ (setCol (setCol t finColSource (CellVal.strv f.filename))
            finColFolder (CellVal.strv f.folder)).cols.map Prod.fst := by
      rw [c2, c1]
      simp [h3, hne31, hne32]
    have c3 := setCol_append _ finColTime CellVal.timev h3'
    unfold finance_add_provenance
    rw [c3, c2, c1]
    exact ⟨by simp, rfl⟩

/-- Witness for provenance_columns at the file d/f.csv and a one-column
table. -/
theorem provenance_columns_inst :
    ((dm_add_provenance fDemo8 t8).cols
        = t8.cols ++ [(colSourceFile, CellVal.strv fDemo8.filename),
            (colFilePath, CellVal.strv (fullPath fDemo8))] ∧
      (dm_add_provenance fDemo8 t8).nrows = t8.nrows) ∧
    ((finance_add_provenance fDemo8 t8).cols
        = t8.cols ++ [(finColSource, CellVal.strv fDemo8.filename),
            (finColFolder, CellVal.strv fDemo8.folder),
            (finColTime, CellVal.timev)] ∧
      (finance_add_provenance fDemo8 t8).nrows = t8.nrows) :=
  ⟨provenance_columns.1 fDemo8 t8 (by decide) (by decide),
    provenance_columns.2 fDemo8 t8 (by decide) (by decide) (by decide)⟩

/-- Claim C8 counterexample: finance_data_merger appends three provenance
columns rather than exactly two, and data_merger's second provenance column
holds the full path d/f.csv, not the source directory d. -/
theorem provenance_columns_refute :
    (finance_add_provenance fDemo8 t8).cols.length = t8.cols.length + 3 ∧
    ¬ (finance_add_provenance fDemo8 t8).cols.length = t8.cols.length + 2 ∧
    ¬ (dm_add_provenance fDemo8 t8).cols
        = t8.cols ++ [(colSourceFile, CellVal.strv fDemo8.filename),
            (colFilePath, CellVal.strv fDemo8.folder)] := by
  refine ⟨by decide, by decide, by decide⟩

/-- Claim C9, amended: the drawdown computed by the two
_calculate_max_drawdown implementations equals the minimum over time of
(value − running max) / running max; the 'max_drawdown' of
finance_data_merger.risk_analysis is a different formula. -/
theorem max_drawdown_running_peak (values : List ℚ) :
    calculate_max_drawdown values = spec_max_drawdown values := by
  unfold calculate_max_drawdown spec_max_drawdown
  rw [expandingMax_eq_runningPeaks]

/-- Claim C9 counterexample: on the series [1, 2] the finance risk_analysis
'max_drawdown' yields 1/2 while the minimum over time of
(value − running max) / running max is 0. -/
theorem max_drawdown_refute :
    finance_risk_max_drawdown ratesDemo = 1 / 2 ∧
    spec_max_drawdown ratesDemo = some 0 ∧ ¬ ((1 : ℚ) / 2 = 0) := by
  refine ⟨?_, ?_, by norm_num⟩
  · norm_num [finance_risk_max_drawdown, listMax1, listMin1, ratesDemo]
  · have hm : max (1 : ℚ) 2 = 2 := max_eq_right (by norm_num)
    have h1 : runningPeaks ratesDemo = [1, 2] := by
      simp [runningPeaks, ratesDemo, listMax1, List.range_succ, hm]
    rw [show spec_max_drawdown ratesDemo
        = listMinQ (List.zipWith (fun v p => (v - p) / p) ratesDemo
            (runningPeaks ratesDemo)) from rfl, h1]
    have hz : List.zipWith (fun v p : ℚ => (v - p) / p) ratesDemo [1, 2]
        = [0, 0] := by
      norm_num [ratesDemo]
    rw [hz]
    simp [listMinQ]

/-- Claim C10: the encoding fallback advances only on UnicodeDecodeError —
a CSV whose utf-8 pass raises any other exception fails with that very
error whatever gbk and latin-1 would return, and the merger records the
file in its error list. -/
theorem csv_fallback_only_on_decode_error
    (a : CsvAttempts) (m : Str) (hu : a.utf8 = RRes.err (PyErr.otherError m)) :
    read_csv_fallback a = RRes.err (PyErr.otherError m) ∧
    ∀ (st : MergeState) (f : SrcFile), f.csvRead = a →
      toLowerStr (pySuffix f.filename) = csvExt →
      step st f = some { st with
        error_files := st.error_files
          ++ [(fullPath f, readFailText (PyErr.otherError m))] } := by
  have hres : read_csv_fallback a = RRes.err (PyErr.otherError m) := by
    unfold read_csv_fallback
    rw [hu]
  refine ⟨hres, ?_⟩
  intro st f hcsv hext
  have hne : ¬(csvExt = xlsxExt ∨ csvExt = xlsExt) := by decide
  have hrd : readData f = some (RRes.err (PyErr.otherError m)) := by
    unfold readData
    rw [hext, if_neg hne, if_pos rfl, hcsv, hres]
  unfold step
  rw [hrd]

/-- Witness for csv_fallback_only_on_decode_error: a CSV whose utf-8 pass
raises a parse error fails with that error even though gbk would return a
table, and the run records it. -/
theorem csv_fallback_only_on_decode_error_inst :
    read_csv_fallback parseErrAttempts = RRes.err (PyErr.otherError parseMsg) ∧
    step initState parseErrCsv
      = some { initState with
          error_files :=
            [(fullPath parseErrCsv, readFailText (PyErr.otherError parseMsg))] } := by
  refine ⟨(csv_fallback_only_on_decode_error parseErrAttempts parseMsg rfl).1, ?_⟩
  exact (csv_fallback_only_on_decode_error parseErrAttempts parseMsg rfl).2
    initState parseErrCsv rfl (by decide)

end FinProj
